import Mathlib

/-!
Shallow embedding of the argocd-attach-service controller
(controller/main.go, controller/util.go, controller/workqueue.go).

The controller reconciles ArgoCluster / ArgoNamespace objects: it manages a
finalizer, invokes pluggable provision/cleanup capabilities, and patches the
status subresource with retry-on-conflict semantics.  Remote calls (patches,
gets, capability invocations) are modelled by an explicit environment of call
outcomes plus a trace of the calls issued, and the remote object's state
(finalizers, status) is threaded through as an explicit world.
-/

/-- Status payload produced by updateGenericStatus (main.go:126-150).  The
lastUpdated field is the wall-clock metav1.Now() and is omitted; state,
message and ready carry the semantic content of the status. -/
structure StatusMap where
  state : String
  message : String
  ready : Bool
deriving Repr, DecidableEq

/-- The metadata fields of the fetched unstructured object that Reconcile
reads: name, namespace, generation, deletionTimestamp (modelled as whether it
is non-zero) and the finalizer list. -/
structure Obj where
  name : String
  ns : String
  generation : Nat
  deletionTimestampSet : Bool
  finalizers : List String
deriving Repr, DecidableEq

/-- util.go:136-143 containsFinalizer: linear scan of GetFinalizers for an
exact match of the token. -/
def containsFinalizer (obj : Obj) (finalizerName : String) : Bool :=
  obj.finalizers.any (fun f => f == finalizerName)

/-- util.go:146-154 removeString: keeps every item different from s,
dropping all occurrences of s. -/
def removeString (slice : List String) (s : String) : List String :=
  slice.filter (fun item => item != s)

/-- main.go:126-150 updateGenericStatus.  The Go function receives the
object but never reads it; the result depends only on success and the
reconcile error. -/
def updateGenericStatus (_u : Obj) (success : Bool) (reconcileErr : Option String) :
    StatusMap :=
  match reconcileErr with
  | some e =>
    { state := "Failed", message := "Reconciliation failed: " ++ e, ready := false }
  | none =>
    if success then
      { state := "Ready", message := "Resource provisioned successfully.", ready := true }
    else
      { state := "Pending",
        message := "Initializing or waiting for finalizer to be confirmed.",
        ready := false }

/-- Outcome of a patchFinalizer call (util.go:104-133). -/
inductive PatchOutcome
  | ok
  | err (msg : String)
deriving Repr, DecidableEq

/-- Outcome of a patchStatus call as observed by Reconcile: ok means the
status was written; silentOk means patchStatus returned nil because the
object was NotFound, so nothing was written; err is a returned error. -/
inductive StatusOutcome
  | ok
  | silentOk
  | err (msg : String)
deriving Repr, DecidableEq

/-- Outcome of the re-fetch in Reconcile's deferred block (main.go:546). -/
inductive GetOutcome
  | found
  | notFound
  | errG (msg : String)
deriving Repr, DecidableEq

/-- Outcomes of the remote calls and capability invocations a single
Reconcile pass can make.  They are fixed per pass: with no intervening
external change the same call gets the same outcome. -/
structure Env where
  cleanupRes : Option String
  provisionRes : Option String
  patchRemoveRes : PatchOutcome
  patchAddRes : PatchOutcome
  statusPendingRes : StatusOutcome
  statusReadyRes : StatusOutcome
  deferGetRes : GetOutcome
  deferStatusRes : StatusOutcome
deriving Repr, DecidableEq

/-- The remote store's state for the reconciled object: its finalizer list
and its status subresource. -/
structure World where
  finalizers : List String
  status : Option StatusMap
deriving Repr, DecidableEq

/-- A remote call or capability invocation issued by Reconcile, in order. -/
inductive CtrlAction
  | cleanupCall
  | provisionCall
  | patchFinalizersCall (finalizers : List String)
  | patchStatusCall (status : StatusMap)
  | getCall
deriving Repr, DecidableEq

/-- How the body of Reconcile exits: ok (return nil), errDefer (reconcileErr
was set, so the deferred status-update block runs), or errNoDefer (the
success-path status patch failed and its error is returned directly without
setting reconcileErr, main.go:626-629). -/
inductive CoreExit
  | ok
  | errDefer (msg : String)
  | errNoDefer (msg : String)
deriving Repr, DecidableEq

/-- Effect of a patchStatus call's outcome on the remote status. -/
def applyStatusOutcome (w : World) (o : StatusOutcome) (s : StatusMap) : World :=
  match o with
  | StatusOutcome.ok => { w with status := some s }
  | StatusOutcome.silentOk => w
  | StatusOutcome.err _ => w

/-- The provisioning tail of Reconcile (main.go:619-634): invoke
provisionFunc; on failure set reconcileErr; on success patch status Ready,
returning the patch error directly if that patch fails. -/
def reconcileProvision (c : Env) (u : Obj) (w : World) (tr : List CtrlAction) :
    World × List CtrlAction × CoreExit :=
  match c.provisionRes with
  | some e =>
    (w, tr ++ [CtrlAction.provisionCall], CoreExit.errDefer ("provisioning failed: " ++ e))
  | none =>
    let statusMap := updateGenericStatus u true none
    let tr2 := tr ++ [CtrlAction.provisionCall, CtrlAction.patchStatusCall statusMap]
    match c.statusReadyRes with
    | StatusOutcome.ok => ({ w with status := some statusMap }, tr2, CoreExit.ok)
    | StatusOutcome.silentOk => (w, tr2, CoreExit.ok)
    | StatusOutcome.err e => (w, tr2, CoreExit.errNoDefer e)

/-- The body of Reconcile (main.go:570-635): the deletion branch (cleanup
then finalizer removal), the add-finalizer branch (patch finalizers, patch
Pending status, fall through), and the provisioning tail. -/
def reconcileCore (c : Env) (u : Obj) (F : String) (w : World) :
    World × List CtrlAction × CoreExit :=
  if u.deletionTimestampSet then
    if containsFinalizer u F then
      match c.cleanupRes with
      | some e => (w, [CtrlAction.cleanupCall], CoreExit.errDefer ("cleanup failed: " ++ e))
      | none =>
        let updatedFinalizers := removeString u.finalizers F
        match c.patchRemoveRes with
        | PatchOutcome.err e =>
          (w, [CtrlAction.cleanupCall, CtrlAction.patchFinalizersCall updatedFinalizers],
            CoreExit.errDefer ("finalizer removal patch failed: " ++ e))
        | PatchOutcome.ok =>
          ({ w with finalizers := updatedFinalizers },
            [CtrlAction.cleanupCall, CtrlAction.patchFinalizersCall updatedFinalizers],
            CoreExit.ok)
    else
      (w, [], CoreExit.ok)
  else
    if containsFinalizer u F then
      reconcileProvision c u w []
    else
      let updatedFinalizers := u.finalizers ++ [F]
      match c.patchAddRes with
      | PatchOutcome.err e =>
        (w, [CtrlAction.patchFinalizersCall updatedFinalizers],
          CoreExit.errDefer ("finalizer addition patch failed: " ++ e))
      | PatchOutcome.ok =>
        let statusMap := updateGenericStatus u false none
        let w1 : World := { w with finalizers := updatedFinalizers }
        let w2 := applyStatusOutcome w1 c.statusPendingRes statusMap
        reconcileProvision c u w2
          [CtrlAction.patchFinalizersCall updatedFinalizers, CtrlAction.patchStatusCall statusMap]

/-- Reconcile (main.go:530-635): the body plus the deferred status-update
block (main.go:542-568), which runs only when reconcileErr was set: it
re-fetches the object (skipping the patch on NotFound or fetch error),
patches a Failed status, and returns the original reconcile error. -/
def Reconcile (c : Env) (u : Obj) (F : String) (w : World) :
    World × List CtrlAction × Option String :=
  match reconcileCore c u F w with
  | (w1, tr, CoreExit.ok) => (w1, tr, none)
  | (w1, tr, CoreExit.errNoDefer e) => (w1, tr, some e)
  | (w1, tr, CoreExit.errDefer e) =>
    match c.deferGetRes with
    | GetOutcome.notFound => (w1, tr ++ [CtrlAction.getCall], some e)
    | GetOutcome.errG _ => (w1, tr ++ [CtrlAction.getCall], some e)
    | GetOutcome.found =>
      let statusMap := updateGenericStatus u false (some e)
      let w2 := applyStatusOutcome w1 c.deferStatusRes statusMap
      (w2, tr ++ [CtrlAction.getCall, CtrlAction.patchStatusCall statusMap], some e)

/-- Result of the pre-reconcile fetch in reconcileByKey (workqueue.go:63). -/
inductive FetchRes
  | found (u : Obj)
  | notFound
  | errF (msg : String)
deriving Repr, DecidableEq

/-- workqueue.go:54-75 reconcileByKey: split the key (keyValid models
whether SplitMetaNamespaceKey succeeds), fetch the latest object, treat
NotFound as completed deletion, otherwise run Reconcile. -/
def reconcileByKey (keyValid : Bool) (c : Env) (F : String) (fetch : FetchRes)
    (w : World) : World × List CtrlAction × Option String :=
  if keyValid = false then
    (w, [], some "invalid resource key")
  else
    match fetch with
    | FetchRes.notFound => (w, [], none)
    | FetchRes.errF m => (w, [], some ("failed to fetch resource: " ++ m))
    | FetchRes.found u => Reconcile c u F w

/-- Rate-limiter operation applied to the dequeued item by
processNextWorkItem. -/
inductive QueueOp
  | forget
  | addRateLimited
deriving Repr, DecidableEq

/-- What Queue.Get handed to the worker: shutdown, a non-string item, or a
key with its current consecutive-requeue count and the reconcile outcome. -/
inductive DequeueItem
  | shutdown
  | nonString
  | key (numRequeues : Nat) (reconcileErr : Option String)
deriving Repr, DecidableEq

/-- workqueue.go:12-51 processNextWorkItem: returns the rate-limiter
operation applied to the item and whether the worker loop continues. -/
def processNextWorkItem : DequeueItem → Option QueueOp × Bool
  | DequeueItem.shutdown => (none, false)
  | DequeueItem.nonString => (some QueueOp.forget, true)
  | DequeueItem.key n e =>
    match e with
    | some _ =>
      if n < 10 then (some QueueOp.addRateLimited, true)
      else (some QueueOp.forget, true)
    | none => (some QueueOp.forget, true)

/-- main.go:660-688, the UpdateFunc event handler of setupInformer: the key
is enqueued exactly when the generation changed between the old and new
object or the new object's deletionTimestamp is non-zero. -/
def updateEventEnqueues (oldU newU : Obj) : Bool :=
  let generationChanged := oldU.generation != newU.generation
  let deletionRequested := newU.deletionTimestampSet
  generationChanged || deletionRequested

/-- Outcome of one ApplyStatus attempt inside patchStatus, as classified by
the retry loop (util.go:79-96). -/
inductive CallRes
  | ok
  | notFound
  | conflict
  | alreadyExists
  | other
deriving Repr, DecidableEq

/-- The conflict class retried by patchStatus (util.go:88):
apierrors.IsConflict or apierrors.IsAlreadyExists. -/
def isConflictClass : CallRes → Bool
  | CallRes.conflict => true
  | CallRes.alreadyExists => true
  | _ => false

/-- Overall result of patchStatus: nil, a non-retryable error returned
immediately, or exhaustion of the retry bound. -/
inductive PSResult
  | success
  | errOther
  | errExhausted
deriving Repr, DecidableEq

/-- util.go:67 const maxRetries = 5. -/
def maxRetries : Nat := 5

/-- util.go:92, the fixed delay (ms) slept before each conflict retry. -/
def retryDelayMs : Nat := 100

/-- util.go:70-97, the retry loop of patchStatus.  f gives the outcome of
the i-th ApplyStatus call; the fuel argument is the number of loop
iterations remaining.  Returns the final result, the total number of
ApplyStatus calls made (the second component, given i calls already made),
and the list of sleeps (in ms) performed. -/
def patchStatusLoop (f : Nat → CallRes) : Nat → Nat → PSResult × Nat × List Nat
  | 0, i => (PSResult.errExhausted, i, [])
  | fuel + 1, i =>
    match f i with
    | CallRes.ok => (PSResult.success, i + 1, [])
    | CallRes.notFound => (PSResult.success, i + 1, [])
    | CallRes.conflict =>
      let r := patchStatusLoop f fuel (i + 1)
      (r.1, r.2.1, retryDelayMs :: r.2.2)
    | CallRes.alreadyExists =>
      let r := patchStatusLoop f fuel (i + 1)
      (r.1, r.2.1, retryDelayMs :: r.2.2)
    | CallRes.other => (PSResult.errOther, i + 1, [])

/-- util.go:53-100 patchStatus: run the ApplyStatus retry loop with
maxRetries attempts starting from attempt 0. -/
def patchStatus (f : Nat → CallRes) : PSResult × Nat × List Nat :=
  patchStatusLoop f maxRetries 0

/-- The spec fields of an ArgoCluster that applyArgoCluster reads
(main.go:95-100; clusterLabels is only forwarded to applySecret). -/
structure ArgoClusterSpec where
  clusterName : String
  argoNamespace : String
  project : String
deriving Repr, DecidableEq

/-- An ArgoCluster object after convertObj: metadata plus spec. -/
structure ArgoClusterObj where
  name : String
  ns : String
  spec : ArgoClusterSpec
deriving Repr, DecidableEq

/-- A remote read or write issued by applyArgoCluster. -/
inductive RemoteOp
  | getSecretOp (ns name : String)
  | applySecretOp (ns name : String)
deriving Repr, DecidableEq

/-- Result of convertObj (util.go:20-31): the structured ArgoCluster or a
conversion error. -/
inductive ConvRes
  | okC (cluster : ArgoClusterObj)
  | errC (msg : String)
deriving Repr, DecidableEq

/-- Environment for applyArgoCluster: the convertObj result, the outcome of
the remote kubeconfig-secret Get, the local parsing chain (NestedStringMap,
the value key, base64 decode, clientcmd.Load), and the remote secret
Apply. -/
structure ClusterEnv where
  convRes : ConvRes
  getSecretErr : Option String
  dataFound : Bool
  valuePresent : Bool
  decodeOk : Bool
  loadOk : Bool
  applySecretErr : Option String
deriving Repr, DecidableEq

/-- main.go:223-298 applyArgoCluster: convert the object, reject argo
namespaces on the blocked list, fetch the cluster kubeconfig secret
(getSecret, main.go:115-124, reads "<clusterName>-kubeconfig"), parse it,
and apply the argo cluster secret "<clusterName>-argo-cluster" into the argo
namespace (applySecret, main.go:300-331).  Returns the remote operations
issued, in order, and the error result. -/
def applyArgoCluster (env : ClusterEnv) (namespaces : List String) :
    List RemoteOp × Option String :=
  match env.convRes with
  | ConvRes.errC e =>
    ([], some ("unable to convert object to structured argocd cluster: " ++ e))
  | ConvRes.okC argoCluster =>
    let ns := argoCluster.ns
    let clusterName := argoCluster.spec.clusterName
    let argoNamespace := argoCluster.spec.argoNamespace
    if namespaces.contains argoNamespace then
      ([], some "argoNamespace is in the list of blocked namespaces, not creating secret")
    else
      let tr := [RemoteOp.getSecretOp ns (clusterName ++ "-kubeconfig")]
      match env.getSecretErr with
      | some e => (tr, some ("unable to retrieve kubeconfig secret: " ++ e))
      | none =>
        if env.dataFound = false then
          (tr, some "cannot get secret data")
        else if env.valuePresent = false then
          (tr, some "value does not exist in kubeconfig secret")
        else if env.decodeOk = false then
          (tr, some "failed to decode value")
        else if env.loadOk = false then
          (tr, some "failed to read kubconfig data")
        else
          let secretName := clusterName ++ "-argo-cluster"
          let tr2 := tr ++ [RemoteOp.applySecretOp argoNamespace secretName]
          match env.applySecretErr with
          | some e => (tr2, some ("unable to create or update argo cluster secret " ++ e))
          | none => (tr2, none)

/-! ## Concrete fixtures used in witnesses and counterexamples -/

/-- An object being deleted with the managed finalizer present. -/
def uDel : Obj :=
  { name := "foo", ns := "ns1", generation := 1,
    deletionTimestampSet := true, finalizers := ["f"] }

/-- A fresh object: no deletionTimestamp, no finalizer. -/
def uNew : Obj :=
  { name := "foo", ns := "ns1", generation := 1,
    deletionTimestampSet := false, finalizers := [] }

/-- Remote state matching uDel before the pass. -/
def wDel : World := { finalizers := ["f"], status := none }

/-- Remote state matching uNew before the pass. -/
def wNew : World := { finalizers := [], status := none }

/-- Environment in which every remote call and capability succeeds. -/
def envAllOk : Env :=
  { cleanupRes := none, provisionRes := none,
    patchRemoveRes := PatchOutcome.ok, patchAddRes := PatchOutcome.ok,
    statusPendingRes := StatusOutcome.ok, statusReadyRes := StatusOutcome.ok,
    deferGetRes := GetOutcome.found, deferStatusRes := StatusOutcome.ok }

/-- Environment in which only the cleanup capability fails. -/
def envCleanupFail : Env := { envAllOk with cleanupRes := some "boom" }

/-- Environment in which only the provision capability fails. -/
def envProvisionFail : Env := { envAllOk with provisionRes := some "nope" }

/-! ## Helper lemmas -/

lemma str_append_assoc (a b c : String) : a ++ b ++ c = a ++ (b ++ c) := by
  apply String.ext
  simp [String.data_append, List.append_assoc]

lemma containsFinalizer_eq_true_iff (u : Obj) (F : String) :
    containsFinalizer u F = true ↔ F ∈ u.finalizers := by
  simp [containsFinalizer]

lemma containsFinalizer_eq_false_iff (u : Obj) (F : String) :
    containsFinalizer u F = false ↔ F ∉ u.finalizers := by
  rw [← containsFinalizer_eq_true_iff]
  simp

lemma mem_removeString (xs : List String) (s t : String) :
    t ∈ removeString xs s → t ∈ xs := by
  intro h
  exact List.mem_of_mem_filter h

lemma count_removeString (xs : List String) (s : String) :
    (removeString xs s).count s = 0 := by
  rw [List.count_eq_zero]
  intro h
  have := List.of_mem_filter h
  simp at this

/-! ## C4: NotFound on the pre-reconcile fetch -/

/-- C4: for every key whose pre-reconcile fetch returns NotFound,
reconcileByKey returns success (nil error, hence no requeue), issues no
remote call at all (so no status write and no other remote mutation), and
leaves the remote state unchanged. -/
theorem reconcileByKey_notFound_clean (c : Env) (F : String) (w : World) :
    reconcileByKey true c F FetchRes.notFound w = (w, [], none) := by
  simp [reconcileByKey]

/-! ## C7: workqueue retry ceiling -/

/-- C7: when reconcile of a dequeued key fails, the key is re-added with
rate limiting while its consecutive-requeue count is below 10; once the
count reaches 10 the item is forgotten (backoff reset, no requeue); the
worker loop continues (returns true) in both cases. -/
theorem processNextWorkItem_retry_policy (n : Nat) (e : String) :
    (n < 10 → processNextWorkItem (DequeueItem.key n (some e)) =
      (some QueueOp.addRateLimited, true)) ∧
    (10 ≤ n → processNextWorkItem (DequeueItem.key n (some e)) =
      (some QueueOp.forget, true)) := by
  constructor
  · intro h
    simp [processNextWorkItem, h]
  · intro h
    simp [processNextWorkItem, Nat.not_lt.mpr h]

/-- Witness for C7 at counts 3 and 10. -/
theorem processNextWorkItem_retry_policy_witness :
    processNextWorkItem (DequeueItem.key 3 (some "boom")) =
      (some QueueOp.addRateLimited, true) ∧
    processNextWorkItem (DequeueItem.key 10 (some "boom")) =
      (some QueueOp.forget, true) :=
  ⟨(processNextWorkItem_retry_policy 3 "boom").1 (by decide),
   (processNextWorkItem_retry_policy 10 "boom").2 (by decide)⟩

/-! ## C8: Update event filtering -/

/-- C8: an Update event enqueues the key exactly when the generation
changed between the old and new object or the new object's
deletionTimestamp is non-zero; in particular an Update with unchanged
generation and no deletion request is dropped. -/
theorem update_event_filter_iff (oldU newU : Obj) :
    updateEventEnqueues oldU newU = true ↔
      (oldU.generation ≠ newU.generation ∨ newU.deletionTimestampSet = true) := by
  simp [updateEventEnqueues]

/-! ## C3: patchStatus retry loop -/

/-- Result of patchStatus when the loop exits at an attempt of the given
class (only meaningful for non-conflict-class attempts). -/
def attemptExit : CallRes → PSResult
  | CallRes.ok => PSResult.success
  | CallRes.notFound => PSResult.success
  | CallRes.other => PSResult.errOther
  | CallRes.conflict => PSResult.errExhausted
  | CallRes.alreadyExists => PSResult.errExhausted

lemma patchStatusLoop_calls_le (f : Nat → CallRes) :
    ∀ fuel i, (patchStatusLoop f fuel i).2.1 ≤ i + fuel := by
  intro fuel
  induction fuel with
  | zero =>
    intro i
    simp [patchStatusLoop]
  | succ fuel ih =>
    intro i
    cases hf : f i with
    | ok => simp [patchStatusLoop, hf]
    | notFound => simp [patchStatusLoop, hf]
    | other => simp [patchStatusLoop, hf]
    | conflict =>
      simp only [patchStatusLoop, hf]
      exact le_trans (ih (i + 1)) (by omega)
    | alreadyExists =>
      simp only [patchStatusLoop, hf]
      exact le_trans (ih (i + 1)) (by omega)

lemma patchStatusLoop_prefix_conflict (f : Nat → CallRes) :
    ∀ fuel i k, i ≤ k → k + 1 < (patchStatusLoop f fuel i).2.1 →
      isConflictClass (f k) = true := by
  intro fuel
  induction fuel with
  | zero =>
    intro i k hik h
    simp [patchStatusLoop] at h
    omega
  | succ fuel ih =>
    intro i k hik h
    cases hf : f i with
    | ok => simp [patchStatusLoop, hf] at h; omega
    | notFound => simp [patchStatusLoop, hf] at h; omega
    | other => simp [patchStatusLoop, hf] at h; omega
    | conflict =>
      rcases Nat.eq_or_lt_of_le hik with rfl | hlt
      · simp [isConflictClass, hf]
      · exact ih (i + 1) k hlt (by simpa only [patchStatusLoop, hf] using h)
    | alreadyExists =>
      rcases Nat.eq_or_lt_of_le hik with rfl | hlt
      · simp [isConflictClass, hf]
      · exact ih (i + 1) k hlt (by simpa only [patchStatusLoop, hf] using h)

lemma patchStatusLoop_exhausted (f : Nat → CallRes) :
    ∀ fuel i, (patchStatusLoop f fuel i).1 = PSResult.errExhausted →
      ∀ k, i ≤ k → k < i + fuel → isConflictClass (f k) = true := by
  intro fuel
  induction fuel with
  | zero =>
    intro i _ k h1 h2
    omega
  | succ fuel ih =>
    intro i h k h1 h2
    cases hf : f i with
    | ok => simp [patchStatusLoop, hf] at h
    | notFound => simp [patchStatusLoop, hf] at h
    | other => simp [patchStatusLoop, hf] at h
    | conflict =>
      rcases Nat.eq_or_lt_of_le h1 with rfl | hlt
      · simp [isConflictClass, hf]
      · exact ih (i + 1) (by simpa only [patchStatusLoop, hf] using h) k hlt (by omega)
    | alreadyExists =>
      rcases Nat.eq_or_lt_of_le h1 with rfl | hlt
      · simp [isConflictClass, hf]
      · exact ih (i + 1) (by simpa only [patchStatusLoop, hf] using h) k hlt (by omega)

lemma patchStatusLoop_first_exit (f : Nat → CallRes) :
    ∀ fuel i k, i ≤ k → k < i + fuel →
      (∀ j, i ≤ j → j < k → isConflictClass (f j) = true) →
      isConflictClass (f k) = false →
      patchStatusLoop f fuel i =
        (attemptExit (f k), k + 1, List.replicate (k - i) retryDelayMs) := by
  intro fuel
  induction fuel with
  | zero =>
    intro i k h1 h2 _ _
    omega
  | succ fuel ih =>
    intro i k hik hk hconf hkc
    rcases Nat.eq_or_lt_of_le hik with rfl | hlt
    · cases hf : f i with
      | ok => simp [patchStatusLoop, hf, attemptExit]
      | notFound => simp [patchStatusLoop, hf, attemptExit]
      | other => simp [patchStatusLoop, hf, attemptExit]
      | conflict => simp [isConflictClass, hf] at hkc
      | alreadyExists => simp [isConflictClass, hf] at hkc
    · have hfi : isConflictClass (f i) = true := hconf i le_rfl hlt
      have hrep : k - i = (k - (i + 1)) + 1 := by omega
      cases hf : f i with
      | ok => simp [isConflictClass, hf] at hfi
      | notFound => simp [isConflictClass, hf] at hfi
      | other => simp [isConflictClass, hf] at hfi
      | conflict =>
        have hrec := ih (i + 1) k hlt (by omega)
          (fun j hj1 hj2 => hconf j (by omega) hj2) hkc
        simp only [patchStatusLoop, hf, hrec, hrep, List.replicate_succ]
      | alreadyExists =>
        have hrec := ih (i + 1) k hlt (by omega)
          (fun j hj1 hj2 => hconf j (by omega) hj2) hkc
        simp only [patchStatusLoop, hf, hrec, hrep, List.replicate_succ]

lemma patchStatusLoop_sleeps (f : Nat → CallRes) :
    ∀ fuel i d, d ∈ (patchStatusLoop f fuel i).2.2 → d = retryDelayMs := by
  intro fuel
  induction fuel with
  | zero =>
    intro i d h
    simp [patchStatusLoop] at h
  | succ fuel ih =>
    intro i d h
    cases hf : f i with
    | ok => simp [patchStatusLoop, hf] at h
    | notFound => simp [patchStatusLoop, hf] at h
    | other => simp [patchStatusLoop, hf] at h
    | conflict =>
      simp only [patchStatusLoop, hf, List.mem_cons] at h
      rcases h with rfl | h
      · rfl
      · exact ih (i + 1) d h
    | alreadyExists =>
      simp only [patchStatusLoop, hf, List.mem_cons] at h
      rcases h with rfl | h
      · rfl
      · exact ih (i + 1) d h

/-- C3: patchStatus makes at most 5 ApplyStatus attempts; it retries only
after Conflict/AlreadyExists-class outcomes (every non-final attempt was
conflict-class, and on exhaustion all 5 were); a NotFound or nil outcome at
the first non-conflict attempt ends the loop immediately with success; any
other error ends it immediately and is returned; every retry sleeps the
fixed 100ms delay. -/
theorem patchStatus_retry_spec (f : Nat → CallRes) :
    (patchStatus f).2.1 ≤ 5 ∧
    (∀ k, k + 1 < (patchStatus f).2.1 → isConflictClass (f k) = true) ∧
    ((patchStatus f).1 = PSResult.errExhausted →
      ∀ k, k < 5 → isConflictClass (f k) = true) ∧
    (∀ k, k < 5 → (∀ j, j < k → isConflictClass (f j) = true) →
      (f k = CallRes.ok ∨ f k = CallRes.notFound) →
      (patchStatus f).1 = PSResult.success ∧ (patchStatus f).2.1 = k + 1) ∧
    (∀ k, k < 5 → (∀ j, j < k → isConflictClass (f j) = true) →
      f k = CallRes.other →
      (patchStatus f).1 = PSResult.errOther ∧ (patchStatus f).2.1 = k + 1) ∧
    (∀ d, d ∈ (patchStatus f).2.2 → d = 100) := by
  refine ⟨?_, ?_, ?_, ?_, ?_, ?_⟩
  · simpa [patchStatus, maxRetries] using patchStatusLoop_calls_le f 5 0
  · intro k hk
    exact patchStatusLoop_prefix_conflict f 5 0 k (Nat.zero_le k) (by simpa [patchStatus, maxRetries] using hk)
  · intro h k hk
    exact patchStatusLoop_exhausted f 5 0 (by simpa [patchStatus, maxRetries] using h) k (Nat.zero_le k) (by omega)
  · intro k hk hconf hok
    have hkc : isConflictClass (f k) = false := by
      rcases hok with h | h <;> simp [isConflictClass, h]
    have := patchStatusLoop_first_exit f 5 0 k (Nat.zero_le k) (by omega)
      (fun j _ hj => hconf j hj) hkc
    have hexit : attemptExit (f k) = PSResult.success := by
      rcases hok with h | h <;> simp [attemptExit, h]
    constructor
    · simp [patchStatus, maxRetries, this, hexit]
    · simp [patchStatus, maxRetries, this]
  · intro k hk hconf hother
    have hkc : isConflictClass (f k) = false := by simp [isConflictClass, hother]
    have := patchStatusLoop_first_exit f 5 0 k (Nat.zero_le k) (by omega)
      (fun j _ hj => hconf j hj) hkc
    constructor
    · simp [patchStatus, maxRetries, this, attemptExit, hother]
    · simp [patchStatus, maxRetries, this]
  · intro d hd
    exact patchStatusLoop_sleeps f 5 0 d (by simpa [patchStatus, maxRetries] using hd)

/-- The C3 scenario attempt sequence: Conflict on attempts 1 and 2, success
on attempt 3. -/
def psConflictTwice : Nat → CallRes := fun k =>
  if k < 2 then CallRes.conflict else CallRes.ok

/-- Witness for C3: two conflicts then success yields overall success after
exactly 3 attempts, with no error surfaced. -/
theorem patchStatus_retry_spec_witness :
    (patchStatus psConflictTwice).1 = PSResult.success ∧
    (patchStatus psConflictTwice).2.1 = 3 :=
  (patchStatus_retry_spec psConflictTwice).2.2.2.1 2 (by decide)
    (by decide) (Or.inl (by decide))

/-! ## World-effect characterization of Reconcile -/

/-- The finalizer list a Reconcile pass writes to the remote store, if any:
the add-finalizer and remove-finalizer patches are the only finalizer
writes, and the value written depends only on the fetched object and the
call outcomes, never on the current remote state. -/
def finsWrite (c : Env) (u : Obj) (F : String) : Option (List String) :=
  if u.deletionTimestampSet then
    if containsFinalizer u F then
      if c.cleanupRes = none ∧ c.patchRemoveRes = PatchOutcome.ok then
        some (removeString u.finalizers F)
      else none
    else none
  else
    if containsFinalizer u F then none
    else if c.patchAddRes = PatchOutcome.ok then some (u.finalizers ++ [F])
    else none

/-- The status a Reconcile pass leaves written in the remote store (the
last successful status patch of the pass), if any. -/
def statusWrite (c : Env) (u : Obj) (F : String) : Option StatusMap :=
  let failed : String → Option StatusMap := fun e =>
    if c.deferGetRes = GetOutcome.found ∧ c.deferStatusRes = StatusOutcome.ok then
      some (updateGenericStatus u false (some e))
    else none
  if u.deletionTimestampSet then
    if containsFinalizer u F then
      match c.cleanupRes with
      | some e => failed ("cleanup failed: " ++ e)
      | none =>
        match c.patchRemoveRes with
        | PatchOutcome.err e => failed ("finalizer removal patch failed: " ++ e)
        | PatchOutcome.ok => none
    else none
  else
    let pendingW : Option StatusMap :=
      if c.statusPendingRes = StatusOutcome.ok then some (updateGenericStatus u false none)
      else none
    if containsFinalizer u F then
      match c.provisionRes with
      | some e => failed ("provisioning failed: " ++ e)
      | none =>
        if c.statusReadyRes = StatusOutcome.ok then some (updateGenericStatus u true none)
        else none
    else
      match c.patchAddRes with
      | PatchOutcome.err e => failed ("finalizer addition patch failed: " ++ e)
      | PatchOutcome.ok =>
        match c.provisionRes with
        | some e =>
          match failed ("provisioning failed: " ++ e) with
          | some s => some s
          | none => pendingW
        | none =>
          if c.statusReadyRes = StatusOutcome.ok then some (updateGenericStatus u true none)
          else pendingW

/-- The remote state after a Reconcile pass: each field is either the
written value (independent of the prior state) or the prior value. -/
lemma Reconcile_world_spec (c : Env) (u : Obj) (F : String) (w : World) :
    (Reconcile c u F w).1 =
      { finalizers := (finsWrite c u F).getD w.finalizers,
        status := match statusWrite c u F with
                  | some s => some s
                  | none => w.status } := by
  obtain ⟨cl, pr, prem, pa, sp, sr, dg, ds⟩ := c
  cases hdel : u.deletionTimestampSet <;> cases hfin : containsFinalizer u F
  · -- not deleting, finalizer absent: add-finalizer branch then provisioning
    rcases pa with _ | e3 <;> rcases sp with _ | _ | e4 <;> rcases pr with _ | e1 <;>
      rcases sr with _ | _ | e5 <;> rcases dg with _ | _ | e6 <;> rcases ds with _ | _ | e7 <;>
      simp [Reconcile, reconcileCore, reconcileProvision, applyStatusOutcome,
        finsWrite, statusWrite, hdel, hfin]
  · -- not deleting, finalizer present: provisioning only
    rcases pr with _ | e1 <;> rcases sr with _ | _ | e5 <;> rcases dg with _ | _ | e6 <;>
      rcases ds with _ | _ | e7 <;>
      simp [Reconcile, reconcileCore, reconcileProvision, applyStatusOutcome,
        finsWrite, statusWrite, hdel, hfin]
  · -- deleting, finalizer absent: no-op
    simp [Reconcile, reconcileCore, finsWrite, statusWrite, hdel, hfin]
  · -- deleting, finalizer present: cleanup then removal
    rcases cl with _ | e0 <;> rcases prem with _ | e2 <;> rcases dg with _ | _ | e6 <;>
      rcases ds with _ | _ | e7 <;>
      simp [Reconcile, reconcileCore, reconcileProvision, applyStatusOutcome,
        finsWrite, statusWrite, hdel, hfin]

/-! ## C2: idempotence of Reconcile -/

lemma reconcile_world_idem (c : Env) (u : Obj) (F : String) (w : World) :
    (Reconcile c u F (Reconcile c u F w).1).1 = (Reconcile c u F w).1 := by
  rw [Reconcile_world_spec c u F w, Reconcile_world_spec]
  cases hf : finsWrite c u F <;> cases hs : statusWrite c u F <;> simp

/-- C2: Reconcile is idempotent: N ≥ 1 passes over the same fetched object
state, with the same call outcomes (no intervening external change), leave
the remote store in the same state (finalizer set and status) as one
pass. -/
theorem reconcile_idempotent (c : Env) (u : Obj) (F : String) (w : World)
    (n : Nat) (h : 1 ≤ n) :
    (fun w' => (Reconcile c u F w').1)^[n] w = (Reconcile c u F w).1 := by
  induction n with
  | zero => omega
  | succ m ih =>
    rcases Nat.eq_zero_or_pos m with rfl | hm
    · simp
    · rw [Function.iterate_succ_apply', ih hm]
      exact reconcile_world_idem c u F w

/-- Witness for C2: three all-success passes over a fresh object equal one
pass. -/
theorem reconcile_idempotent_witness :
    (fun w' => (Reconcile envAllOk uNew "f" w').1)^[3] wNew =
      (Reconcile envAllOk uNew "f" wNew).1 :=
  reconcile_idempotent envAllOk uNew "f" wNew 3 (by decide)

/-! ## C1: cleanup before finalizer removal -/

/-- Every finalizer-list patch in the trace is preceded by a cleanup
invocation. -/
def cleanupPrecedesFinalizerPatch (tr : List CtrlAction) : Prop :=
  ∀ (j : Nat) (l : List String), tr[j]? = some (CtrlAction.patchFinalizersCall l) →
    ∃ i : Nat, i < j ∧ tr[i]? = some CtrlAction.cleanupCall

lemma cleanupPrecedes_of_head (rest : List CtrlAction) :
    cleanupPrecedesFinalizerPatch (CtrlAction.cleanupCall :: rest) := by
  intro j l hj
  cases j with
  | zero => simp at hj
  | succ j => exact ⟨0, Nat.succ_pos j, by simp⟩

lemma reconcile_deletion_trace (c : Env) (u : Obj) (F : String) (w : World)
    (hdel : u.deletionTimestampSet = true)
    (hfin : containsFinalizer u F = true) :
    ∃ rest, (Reconcile c u F w).2.1 = CtrlAction.cleanupCall :: rest := by
  obtain ⟨cl, pr, prem, pa, sp, sr, dg, ds⟩ := c
  rcases cl with _ | e0 <;> rcases prem with _ | e2 <;> rcases dg with _ | _ | e6 <;>
    simp [Reconcile, reconcileCore, hdel, hfin]

/-- C1: for an object with deletionTimestamp set and the managed finalizer
present, every finalizer write of the pass happens after the cleanup
invocation; if cleanup fails, no finalizer write is issued at all, the
remote finalizer list is untouched and the cleanup error is returned (so
the key is requeued); if cleanup succeeds, the finalizer-removal patch
(the list with the token removed) is issued. -/
theorem reconcile_cleanup_before_finalizer_removal
    (c : Env) (u : Obj) (F : String) (w : World)
    (hdel : u.deletionTimestampSet = true)
    (hfin : containsFinalizer u F = true) :
    cleanupPrecedesFinalizerPatch (Reconcile c u F w).2.1 ∧
    (∀ e, c.cleanupRes = some e →
      (∀ l, CtrlAction.patchFinalizersCall l ∉ (Reconcile c u F w).2.1) ∧
      (Reconcile c u F w).2.2 = some ("cleanup failed: " ++ e) ∧
      (Reconcile c u F w).1.finalizers = w.finalizers) ∧
    (c.cleanupRes = none →
      CtrlAction.patchFinalizersCall (removeString u.finalizers F) ∈
        (Reconcile c u F w).2.1) := by
  obtain ⟨cl, pr, prem, pa, sp, sr, dg, ds⟩ := c
  refine ⟨?_, ?_, ?_⟩
  · obtain ⟨rest, hr⟩ := reconcile_deletion_trace _ u F w hdel hfin
    rw [hr]
    exact cleanupPrecedes_of_head rest
  · intro e he
    rcases cl with _ | e0
    · simp at he
    · simp only [Option.some.injEq] at he
      subst he
      rcases dg with _ | _ | e6 <;> rcases ds with _ | _ | e7 <;>
        simp [Reconcile, reconcileCore, applyStatusOutcome, hdel, hfin]
  · intro he
    rcases cl with _ | e0
    · rcases prem with _ | e2 <;> rcases dg with _ | _ | e6 <;>
        simp [Reconcile, reconcileCore, applyStatusOutcome, hdel, hfin]
    · simp at he

/-- Witness for C1: cleanup failure on a deleting object with the finalizer
present leaves the finalizer in place and returns the cleanup error. -/
theorem reconcile_cleanup_before_finalizer_removal_witness :
    (Reconcile envCleanupFail uDel "f" wDel).2.2 = some ("cleanup failed: " ++ "boom") ∧
    (Reconcile envCleanupFail uDel "f" wDel).1.finalizers = wDel.finalizers :=
  ⟨((reconcile_cleanup_before_finalizer_removal envCleanupFail uDel "f" wDel
      (by decide) (by decide)).2.1 "boom" (by decide)).2.1,
   ((reconcile_cleanup_before_finalizer_removal envCleanupFail uDel "f" wDel
      (by decide) (by decide)).2.1 "boom" (by decide)).2.2⟩

/-! ## C5: first pass on a fresh object -/

/-- Counterexample to C5 as stated: on a fresh object (deletionTimestamp
unset, finalizer absent) a single fully successful Reconcile pass ends with
status Ready, not Pending, because the code falls through from the
add-finalizer step into provisioning in the same pass
(main.go:615-634). -/
theorem reconcile_first_pass_pending_counterexample :
    uNew.deletionTimestampSet = false ∧
    containsFinalizer uNew "f" = false ∧
    (Reconcile envAllOk uNew "f" wNew).1.status =
      some { state := "Ready", message := "Resource provisioned successfully.",
             ready := true } ∧
    (Reconcile envAllOk uNew "f" wNew).1.status ≠
      some { state := "Pending",
             message := "Initializing or waiting for finalizer to be confirmed.",
             ready := false } := by
  decide

/-- C5 (amended): on a fresh object, one Reconcile pass whose add-finalizer
patch succeeds leaves the finalizer present; the first write of the pass is
the finalizer addition and the second is a status patch whose state is
Pending (not Ready); the pass then continues into provisioning, so when
provisioning and the final status patch succeed the end-of-pass status is
Ready. -/
theorem reconcile_first_pass_finalizer_added
    (c : Env) (u : Obj) (F : String) (w : World)
    (hdel : u.deletionTimestampSet = false)
    (hfin : containsFinalizer u F = false)
    (hadd : c.patchAddRes = PatchOutcome.ok) :
    F ∈ (Reconcile c u F w).1.finalizers ∧
    ((Reconcile c u F w).2.1)[0]? =
      some (CtrlAction.patchFinalizersCall (u.finalizers ++ [F])) ∧
    ((Reconcile c u F w).2.1)[1]? =
      some (CtrlAction.patchStatusCall (updateGenericStatus u false none)) ∧
    (updateGenericStatus u false none).state = "Pending" ∧
    (c.provisionRes = none → c.statusReadyRes = StatusOutcome.ok →
      (Reconcile c u F w).1.status = some (updateGenericStatus u true none) ∧
      (updateGenericStatus u true none).state = "Ready") := by
  obtain ⟨cl, pr, prem, pa, sp, sr, dg, ds⟩ := c
  rcases pa with _ | e3
  · rcases sp with _ | _ | e4 <;> rcases pr with _ | e1 <;> rcases sr with _ | _ | e5 <;>
      rcases dg with _ | _ | e6 <;> rcases ds with _ | _ | e7 <;>
      simp [Reconcile, reconcileCore, reconcileProvision, applyStatusOutcome,
        updateGenericStatus, hdel, hfin]
  · simp at hadd

/-- Witness for C5 (amended) on a fresh object with everything
succeeding. -/
theorem reconcile_first_pass_finalizer_added_witness :
    "f" ∈ (Reconcile envAllOk uNew "f" wNew).1.finalizers ∧
    ((Reconcile envAllOk uNew "f" wNew).2.1)[1]? =
      some (CtrlAction.patchStatusCall (updateGenericStatus uNew false none)) :=
  ⟨(reconcile_first_pass_finalizer_added envAllOk uNew "f" wNew
      (by decide) (by decide) (by decide)).1,
   (reconcile_first_pass_finalizer_added envAllOk uNew "f" wNew
      (by decide) (by decide) (by decide)).2.2.1⟩

/-! ## C6: well-formedness of finalizer writes -/

lemma reconcileProvision_trace (c : Env) (u : Obj) (w : World) (tr : List CtrlAction) :
    ∃ tail, (reconcileProvision c u w tr).2.1 = tr ++ tail ∧
      ∀ l : List String, CtrlAction.patchFinalizersCall l ∉ tail := by
  obtain ⟨cl, pr, prem, pa, sp, sr, dg, ds⟩ := c
  rcases pr with _ | e1 <;> rcases sr with _ | _ | e5
  · exact ⟨[CtrlAction.provisionCall,
      CtrlAction.patchStatusCall (updateGenericStatus u true none)], rfl, by simp⟩
  · exact ⟨[CtrlAction.provisionCall,
      CtrlAction.patchStatusCall (updateGenericStatus u true none)], rfl, by simp⟩
  · exact ⟨[CtrlAction.provisionCall,
      CtrlAction.patchStatusCall (updateGenericStatus u true none)], rfl, by simp⟩
  · exact ⟨[CtrlAction.provisionCall], rfl, by simp⟩
  · exact ⟨[CtrlAction.provisionCall], rfl, by simp⟩
  · exact ⟨[CtrlAction.provisionCall], rfl, by simp⟩

lemma reconcile_trace_decomp (c : Env) (u : Obj) (F : String) (w : World) :
    ∃ suffix, (Reconcile c u F w).2.1 = (reconcileCore c u F w).2.1 ++ suffix ∧
      ∀ l : List String, CtrlAction.patchFinalizersCall l ∉ suffix := by
  rcases hc : reconcileCore c u F w with ⟨w1, tr, ex⟩
  rcases ex with _ | e | e
  · exact ⟨[], by simp [Reconcile, hc], by simp⟩
  · rcases hdg : c.deferGetRes with _ | _ | e6
    · exact ⟨[CtrlAction.getCall,
        CtrlAction.patchStatusCall (updateGenericStatus u false (some e))],
        by simp [Reconcile, hc, hdg], by simp⟩
    · exact ⟨[CtrlAction.getCall], by simp [Reconcile, hc, hdg], by simp⟩
    · exact ⟨[CtrlAction.getCall], by simp [Reconcile, hc, hdg], by simp⟩
  · exact ⟨[], by simp [Reconcile, hc], by simp⟩

lemma reconcileCore_patchFin (c : Env) (u : Obj) (F : String) (w : World)
    (l : List String)
    (h : CtrlAction.patchFinalizersCall l ∈ (reconcileCore c u F w).2.1) :
    (u.deletionTimestampSet = true ∧ containsFinalizer u F = true ∧
      l = removeString u.finalizers F) ∨
    (u.deletionTimestampSet = false ∧ containsFinalizer u F = false ∧
      l = u.finalizers ++ [F]) := by
  cases hdel : u.deletionTimestampSet <;> cases hfin : containsFinalizer u F
  · -- not deleting, finalizer absent
    rcases hpa : c.patchAddRes with _ | e3
    · obtain ⟨tail, ht, hno⟩ := reconcileProvision_trace c u
        (applyStatusOutcome { w with finalizers := u.finalizers ++ [F] }
          c.statusPendingRes (updateGenericStatus u false none))
        [CtrlAction.patchFinalizersCall (u.finalizers ++ [F]),
         CtrlAction.patchStatusCall (updateGenericStatus u false none)]
      simp [reconcileCore, hdel, hfin, hpa] at h
      rw [ht] at h
      simp at h
      rcases h with h | h
      · exact Or.inr ⟨rfl, rfl, h⟩
      · exact absurd h (hno l)
    · simp [reconcileCore, hdel, hfin, hpa] at h
      exact Or.inr ⟨rfl, rfl, h⟩
  · -- not deleting, finalizer present
    obtain ⟨tail, ht, hno⟩ := reconcileProvision_trace c u w []
    simp [reconcileCore, hdel, hfin] at h
    rw [ht] at h
    simp at h
    exact absurd h (hno l)
  · -- deleting, finalizer absent
    simp [reconcileCore, hdel, hfin] at h
  · -- deleting, finalizer present
    rcases hcl : c.cleanupRes with _ | e0
    · rcases hprem : c.patchRemoveRes with _ | e2 <;>
        simp [reconcileCore, hdel, hfin, hcl, hprem] at h <;>
        exact Or.inl ⟨rfl, rfl, h⟩
    · simp [reconcileCore, hdel, hfin, hcl] at h

lemma reconcile_patchFin (c : Env) (u : Obj) (F : String) (w : World)
    (l : List String)
    (h : CtrlAction.patchFinalizersCall l ∈ (Reconcile c u F w).2.1) :
    (u.deletionTimestampSet = true ∧ containsFinalizer u F = true ∧
      l = removeString u.finalizers F) ∨
    (u.deletionTimestampSet = false ∧ containsFinalizer u F = false ∧
      l = u.finalizers ++ [F]) := by
  obtain ⟨suffix, hs, hno⟩ := reconcile_trace_decomp c u F w
  rw [hs] at h
  rcases List.mem_append.mp h with h | h
  · exact reconcileCore_patchFin c u F w l h
  · exact absurd h (hno l)

/-- C6: every finalizer list the controller writes back contains the
managed token at most once, and contains no token that was not already on
the fetched object other than the managed token itself. -/
theorem reconcile_finalizer_writes_wellformed
    (c : Env) (u : Obj) (F : String) (w : World) (l : List String)
    (h : CtrlAction.patchFinalizersCall l ∈ (Reconcile c u F w).2.1) :
    l.count F ≤ 1 ∧ ∀ t ∈ l, t ∈ u.finalizers ∨ t = F := by
  rcases reconcile_patchFin c u F w l h with ⟨_, _, rfl⟩ | ⟨_, hfin, rfl⟩
  · constructor
    · simp [count_removeString]
    · intro t ht
      exact Or.inl (mem_removeString _ _ _ ht)
  · have hF : F ∉ u.finalizers := (containsFinalizer_eq_false_iff u F).mp hfin
    constructor
    · rw [List.count_append]
      have h0 : u.finalizers.count F = 0 := List.count_eq_zero.mpr hF
      simp [h0]
    · intro t ht
      rcases List.mem_append.mp ht with ht | ht
      · exact Or.inl ht
      · simp at ht
        exact Or.inr ht

/-- Witness for C6: the finalizer list written by the add-finalizer step of
a fresh object's first pass. -/
theorem reconcile_finalizer_writes_wellformed_witness :
    (uNew.finalizers ++ ["f"]).count "f" ≤ 1 ∧
    ∀ t ∈ uNew.finalizers ++ ["f"], t ∈ uNew.finalizers ∨ t = "f" :=
  reconcile_finalizer_writes_wellformed envAllOk uNew "f" wNew
    (uNew.finalizers ++ ["f"]) (by decide)

/-! ## C9: provision failure patches a Failed status -/

/-- A non-deleting object that already carries the managed finalizer. -/
def uFin : Obj :=
  { name := "foo", ns := "ns1", generation := 2,
    deletionTimestampSet := false, finalizers := ["f"] }

lemma provisionErr_result (c : Env) (u : Obj) (F : String) (w : World) (e : String)
    (hpr : c.provisionRes = some e)
    (hrun : CtrlAction.provisionCall ∈ (Reconcile c u F w).2.1) :
    (Reconcile c u F w).2.2 = some ("provisioning failed: " ++ e) := by
  obtain ⟨cl, pr, prem, pa, sp, sr, dg, ds⟩ := c
  rcases pr with _ | e1
  · simp at hpr
  · simp only [Option.some.injEq] at hpr
    subst hpr
    cases hdel : u.deletionTimestampSet <;> cases hfin : containsFinalizer u F
    · rcases pa with _ | e3
      · rcases dg with _ | _ | e6 <;>
          simp [Reconcile, reconcileCore, reconcileProvision, applyStatusOutcome,
            hdel, hfin]
      · rcases dg with _ | _ | e6 <;>
          simp [Reconcile, reconcileCore, hdel, hfin] at hrun
    · rcases dg with _ | _ | e6 <;>
        simp [Reconcile, reconcileCore, reconcileProvision, applyStatusOutcome,
          hdel, hfin]
    · simp [Reconcile, reconcileCore, hdel, hfin] at hrun
    · rcases cl with _ | e0
      · rcases prem with _ | e2 <;> rcases dg with _ | _ | e6 <;>
          simp [Reconcile, reconcileCore, applyStatusOutcome, hdel, hfin] at hrun
      · rcases dg with _ | _ | e6 <;>
          simp [Reconcile, reconcileCore, applyStatusOutcome, hdel, hfin] at hrun

lemma provisionErr_defer_patch (c : Env) (u : Obj) (F : String) (w : World)
    (e : String)
    (hpr : c.provisionRes = some e)
    (hrun : CtrlAction.provisionCall ∈ (Reconcile c u F w).2.1)
    (hget : c.deferGetRes = GetOutcome.found) :
    CtrlAction.patchStatusCall (updateGenericStatus u false (some ("provisioning failed: " ++ e))) ∈
      (Reconcile c u F w).2.1 := by
  obtain ⟨cl, pr, prem, pa, sp, sr, dg, ds⟩ := c
  rcases pr with _ | e1
  · simp at hpr
  · simp only [Option.some.injEq] at hpr
    subst hpr
    rcases dg with _ | _ | e6
    · cases hdel : u.deletionTimestampSet <;> cases hfin : containsFinalizer u F
      · rcases pa with _ | e3
        · simp [Reconcile, reconcileCore, reconcileProvision, applyStatusOutcome,
            hdel, hfin]
        · simp [Reconcile, reconcileCore, hdel, hfin] at hrun
      · simp [Reconcile, reconcileCore, reconcileProvision, applyStatusOutcome,
          hdel, hfin]
      · simp [Reconcile, reconcileCore, hdel, hfin] at hrun
      · rcases cl with _ | e0
        · rcases prem with _ | e2 <;>
            simp [Reconcile, reconcileCore, applyStatusOutcome, hdel, hfin] at hrun
        · simp [Reconcile, reconcileCore, applyStatusOutcome, hdel, hfin] at hrun
    · simp at hget
    · simp at hget

/-- C9: when the provision capability fails during a Reconcile pass (and
the deferred re-fetch finds the object), the pass issues a status patch
whose state is "Failed" and whose message contains the failure cause, and
Reconcile returns the provisioning error for requeue. -/
theorem reconcile_provision_failure_patches_failed
    (c : Env) (u : Obj) (F : String) (w : World) (cause : String)
    (hpr : c.provisionRes = some cause)
    (hrun : CtrlAction.provisionCall ∈ (Reconcile c u F w).2.1)
    (hget : c.deferGetRes = GetOutcome.found) :
    (Reconcile c u F w).2.2 = some ("provisioning failed: " ++ cause) ∧
    ∃ s : StatusMap, CtrlAction.patchStatusCall s ∈ (Reconcile c u F w).2.1 ∧
      s.state = "Failed" ∧ ∃ p : String, s.message = p ++ cause := by
  refine ⟨provisionErr_result c u F w cause hpr hrun, ?_⟩
  refine ⟨updateGenericStatus u false (some ("provisioning failed: " ++ cause)),
    provisionErr_defer_patch c u F w cause hpr hrun hget, rfl, ?_⟩
  refine ⟨"Reconciliation failed: " ++ "provisioning failed: ", ?_⟩
  show "Reconciliation failed: " ++ ("provisioning failed: " ++ cause) =
    "Reconciliation failed: " ++ "provisioning failed: " ++ cause
  rw [str_append_assoc]

/-- Witness for C9: provisioning fails on an object that already has the
finalizer; the pass returns the error and patches a Failed status whose
message contains the cause. -/
theorem reconcile_provision_failure_patches_failed_witness :
    (Reconcile envProvisionFail uFin "f" wDel).2.2 =
      some ("provisioning failed: " ++ "nope") ∧
    ∃ s : StatusMap,
      CtrlAction.patchStatusCall s ∈ (Reconcile envProvisionFail uFin "f" wDel).2.1 ∧
      s.state = "Failed" ∧ ∃ p : String, s.message = p ++ "nope" :=
  reconcile_provision_failure_patches_failed envProvisionFail uFin "f" wDel "nope"
    (by decide) (by decide) (by decide)

/-! ## C10: blocked argo namespaces are rejected before any remote call -/

/-- An ArgoCluster whose spec.argoNamespace is on the blocked list used in
the witness. -/
def clusterBlocked : ArgoClusterObj :=
  { name := "c1", ns := "ns1",
    spec := { clusterName := "c1", argoNamespace := "argocd", project := "default" } }

/-- A ClusterEnv whose conversion yields clusterBlocked and whose remote
calls would all succeed if reached. -/
def clusterEnvBlocked : ClusterEnv :=
  { convRes := ConvRes.okC clusterBlocked, getSecretErr := none, dataFound := true,
    valuePresent := true, decodeOk := true, loadOk := true, applySecretErr := none }

/-- C10: when spec.argoNamespace is on the controller's blocked-namespace
list, applyArgoCluster returns an error having issued no remote operation
at all (in particular no cluster-secret apply); and such a provision error
makes Reconcile return an error, which the worker requeues with rate
limiting while below the retry ceiling — a retryable failure, not a
terminal skip. -/
theorem applyArgoCluster_blocked_namespace
    (env : ClusterEnv) (namespaces : List String) (cluster : ArgoClusterObj)
    (hconv : env.convRes = ConvRes.okC cluster)
    (hblocked : namespaces.contains cluster.spec.argoNamespace = true) :
    (applyArgoCluster env namespaces).1 = [] ∧
    (applyArgoCluster env namespaces).2 =
      some "argoNamespace is in the list of blocked namespaces, not creating secret" ∧
    (∀ ns name : String,
      RemoteOp.applySecretOp ns name ∉ (applyArgoCluster env namespaces).1) ∧
    (∀ (c : Env) (u : Obj) (F : String) (w : World) (e : String),
      c.provisionRes = some e →
      CtrlAction.provisionCall ∈ (Reconcile c u F w).2.1 →
      (Reconcile c u F w).2.2 = some ("provisioning failed: " ++ e)) ∧
    (∀ (n : Nat) (msg : String), n < 10 →
      processNextWorkItem (DequeueItem.key n (some msg)) =
        (some QueueOp.addRateLimited, true)) := by
  obtain ⟨cv, gs, df, vp, dk, lo, ap⟩ := env
  have hres : applyArgoCluster ⟨cv, gs, df, vp, dk, lo, ap⟩ namespaces =
      ([], some "argoNamespace is in the list of blocked namespaces, not creating secret") := by
    rcases cv with c0 | e0
    · simp only [ConvRes.okC.injEq] at hconv
      subst hconv
      have hmem : c0.spec.argoNamespace ∈ namespaces := by
        simpa using hblocked
      simp [applyArgoCluster, hmem]
    · simp at hconv
  refine ⟨?_, ?_, ?_, ?_, ?_⟩
  · rw [hres]
  · rw [hres]
  · intro ns name
    rw [hres]
    simp
  · intro c u F w e hpr hrun
    exact provisionErr_result c u F w e hpr hrun
  · intro n msg h
    simp [processNextWorkItem, h]

/-- Witness for C10: a cluster whose argo namespace "argocd" is blocked. -/
theorem applyArgoCluster_blocked_namespace_witness :
    (applyArgoCluster clusterEnvBlocked ["argocd"]).1 = [] ∧
    (applyArgoCluster clusterEnvBlocked ["argocd"]).2 =
      some "argoNamespace is in the list of blocked namespaces, not creating secret" :=
  ⟨(applyArgoCluster_blocked_namespace clusterEnvBlocked ["argocd"] clusterBlocked
      (by decide) (by decide)).1,
   (applyArgoCluster_blocked_namespace clusterEnvBlocked ["argocd"] clusterBlocked
      (by decide) (by decide)).2.1⟩
